import Mathlib

/-
Verification of the audio-streaming client (script.py) and server
(android_server.py) of the AUDIOREMOTEDESKTOPANDROIDTOPC repository.

The development shallowly embeds the delay/state logic of the WebSocket
client manager, the capture callback, the sender and receiver pipelines,
the capture-to-file accumulator, the hardware-open error classification,
the server session handler, and the shutdown sequence.  Machine floats of
the source are modelled by exact rationals; the transcendental sine routine
of the server's response synthesis is abstracted as a rational-valued
parameter, so that every statement about frame counts, lengths, pairing and
ordering holds for any actual sine implementation.
-/

namespace AudioRemote

/- ===== Shared audio configuration constants (both endpoints) ===== -/

/- RATE = 44100 in script.py and android_server.py. -/
def RATE : ℕ := 44100

/- CHANNELS = 1 (mono). -/
def CHANNELS : ℕ := 1

/- p.get_sample_size(paInt16) = 2 bytes per sample. -/
def sample_width : ℕ := 2

/- ===== Connection manager retry/backoff state (script.py, websocket_client_manager) ===== -/

/- The four distinct except-clauses of the connect attempt. -/
inductive ConnectFailureKind
  | timeout
  | refused
  | osError
  | otherError
deriving DecidableEq

/- Delay-relevant events seen by the manager loop. -/
inductive ConnEvent
  | connectFail (kind : ConnectFailureKind)
  | connectOk
  | pingOk
  | pingFail
deriving DecidableEq

def INITIAL_RETRY_DELAY : ℕ := 1

def MAX_RETRY_DELAY : ℕ := 30

/- current_retry_delay update per manager-loop event: every connect-failure
branch runs current = min(current * 2, MAX); a successful connect or a
successful ping resets to INITIAL; a failed ping leaves it unchanged. -/
def stepRetryDelay (d : ℕ) : ConnEvent → ℕ
  | ConnEvent.connectFail _ => min (d * 2) MAX_RETRY_DELAY
  | ConnEvent.connectOk => INITIAL_RETRY_DELAY
  | ConnEvent.pingOk => INITIAL_RETRY_DELAY
  | ConnEvent.pingFail => d

/- Delay value reached after a run of consecutive connect failures (of any
kinds), starting from the reset state.  delayAfterFails ks is also the delay
slept on the next (the ks.length-th, 0-indexed) consecutive failure. -/
def delayAfterFails (ks : List ConnectFailureKind) : ℕ :=
  ks.foldl (fun d k => stepRetryDelay d (ConnEvent.connectFail k)) INITIAL_RETRY_DELAY

/- ===== Capture callback (script.py, audio_callback) ===== -/

inductive CallbackSignal
  | paContinue
  | paComplete
deriving DecidableEq

/- Returns ((frame-to-hardware, stream signal), whether the frame was
enqueued to the asyncio queue).  The enqueue happens only when the
background loop is found and running. -/
def audio_callback (recording app_running loopRunning : Bool) (in_data : List ℕ) :
    (Option (List ℕ) × CallbackSignal) × Bool :=
  if recording && app_running then ((some in_data, CallbackSignal.paContinue), loopRunning)
  else ((none, CallbackSignal.paComplete), false)

/- ===== Sender pipeline (script.py, send_audio_to_websocket) ===== -/

/- n pop-iterations against a queue holding the given frames in FIFO order;
returns (frames written to the connection, frames still queued).  A popped
falsy (empty) frame is not written; a non-empty frame is written as one
message. -/
def sendLoopN : ℕ → List (List ℕ) → List (List ℕ) × List (List ℕ)
  | 0, q => ([], q)
  | _ + 1, [] => ([], [])
  | n + 1, f :: rest =>
    let r := sendLoopN n rest
    ((if f.isEmpty then [] else [f]) ++ r.1, r.2)

/- ===== Receiver pipeline capture-to-file accumulator (script.py, receive_audio_from_websocket) ===== -/

/- is_saving_audio_active_session / saved_frames_this_session /
audio_buffer_for_saving, the per-task local saving state. -/
structure SaveState where
  active : Bool
  frames : ℕ
  buffer : List (List ℕ)
deriving DecidableEq

/- frames_in_chunk = len(data) // (sample_width * CHANNELS). -/
def chunkFrames (d : List ℕ) : ℕ := d.length / (sample_width * CHANNELS)

/- Saving-relevant part of one receive-loop iteration on received data d.
Empty (falsy) data is skipped entirely.  While saving is active the chunk is
appended and counted; when the count reaches max_frames the joined buffer is
flushed once to save_buffered_audio_to_wav and saving is deactivated. -/
def saveStep (maxFrames : ℕ) (s : SaveState) (d : List ℕ) : SaveState × List (List ℕ) :=
  if d.isEmpty then (s, [])
  else if s.active then
    let fr := s.frames + chunkFrames d
    let buf := s.buffer ++ [d]
    if maxFrames ≤ fr then ({ active := false, frames := fr, buffer := [] }, [buf.flatten])
    else ({ active := true, frames := fr, buffer := buf }, [])
  else (s, [])

/- The receive loop over a session's received chunks, accumulating the
writeWav invocations in order. -/
def recvSaveLoop (maxFrames : ℕ) : SaveState → List (List ℕ) → SaveState × List (List ℕ)
  | s, [] => (s, [])
  | s, d :: rest =>
    let p := saveStep maxFrames s d
    let q := recvSaveLoop maxFrames p.1 rest
    (q.1, p.2 ++ q.2)

/- State at task start when --save-received-audio is configured. -/
def initSave : SaveState := { active := true, frames := 0, buffer := [] }

/- The finally-block of the receive task: flush the leftover buffer when
saving is still active and the buffer is non-empty. -/
def sessionTailFlush (s : SaveState) : List (List ℕ) :=
  if s.active && !s.buffer.isEmpty then [s.buffer.flatten] else []

/- All writeWav invocations made by one receive-task session. -/
def sessionWrites (maxFrames : ℕ) (chunks : List (List ℕ)) : List (List ℕ) :=
  (recvSaveLoop maxFrames initSave chunks).2 ++
    sessionTailFlush (recvSaveLoop maxFrames initSave chunks).1

/- All writeWav invocations of a whole run: the manager creates a fresh
receive task (with fresh local saving state) for each successful connect,
so a run is a list of sessions. -/
def runWrites (maxFrames : ℕ) (sessions : List (List (List ℕ))) : List (List ℕ) :=
  (sessions.map (sessionWrites maxFrames)).flatten

def totalFrames (chunks : List (List ℕ)) : ℕ := (chunks.map chunkFrames).sum

/- ===== Hardware-open error classification (script.py) ===== -/

def lowerStr (s : List Char) : List Char := s.map Char.toLower

def leadMatch : List Char → List Char → Bool
  | [], _ => true
  | _ :: _, [] => false
  | a :: as, b :: bs => a == b && leadMatch as bs

def hasSub (pat : List Char) : List Char → Bool
  | [] => leadMatch pat []
  | b :: bs => leadMatch pat (b :: bs) || hasSub pat bs

def noMicMsg : String := "Error: No microphone found or invalid input device."

def micBusyMsg : String := "Error: Microphone is busy or unavailable."

def micGenericMsg : String := "Error: Could not open microphone. Check audio settings."

def noSpkMsg : String := "Error: No speaker found or invalid output device."

def spkBusyMsg : String := "Error: Speaker is busy or unavailable."

def spkGenericMsg : String := "Error: Could not open speaker. Check audio settings."

/- Classification of an input-device IOError message (run_audio_and_websocket_loop). -/
def user_msg_input (err : List Char) : String :=
  if hasSub ("invalid input device".toList) (lowerStr err)
      || hasSub ("no default input device".toList) (lowerStr err) then noMicMsg
  else if hasSub ("device unavailable".toList) (lowerStr err)
      || hasSub ("device or resource busy".toList) (lowerStr err) then micBusyMsg
  else micGenericMsg

/- Classification of an output-device IOError message (receive_audio_from_websocket). -/
def user_msg_output (err : List Char) : String :=
  if hasSub ("invalid output device".toList) (lowerStr err)
      || hasSub ("no default output device".toList) (lowerStr err) then noSpkMsg
  else if hasSub ("device unavailable".toList) (lowerStr err)
      || hasSub ("device or resource busy".toList) (lowerStr err) then spkBusyMsg
  else spkGenericMsg

/- ===== Client run/session traces for hardware-open failures ===== -/

inductive CliEvent
  | openMicAttempt
  | openSpeakerAttempt
  | report (msg : String)
  | micStreamStarted
  | managerStarted
  | playChunk (b : List ℕ)
  | speakerClosed
  | micClosed
deriving DecidableEq

/- One receive task: it opens the speaker exactly once; on failure it reports
the classified message and returns (no playback in that session); on success
it plays the received chunks and closes the stream in its finally block. -/
def receiveTaskTrace (spkOpenErr : Option (List Char)) (chunks : List (List ℕ)) : List CliEvent :=
  CliEvent.openSpeakerAttempt ::
    match spkOpenErr with
    | some err => [CliEvent.report (user_msg_output err)]
    | none => chunks.map CliEvent.playChunk ++ [CliEvent.speakerClosed]

/- One run of run_audio_and_websocket_loop: the microphone is opened exactly
once; on IOError the classified message is reported, app_running is set
False and the thread returns (no manager, no sessions).  On success the
manager runs and creates one receive task per successful connect. -/
def clientRunTrace (micOpenErr : Option (List Char))
    (sessions : List (Option (List Char) × List (List ℕ))) : List CliEvent × Bool :=
  match micOpenErr with
  | some err => ([CliEvent.openMicAttempt, CliEvent.report (user_msg_input err)], false)
  | none =>
    (CliEvent.openMicAttempt :: CliEvent.micStreamStarted :: CliEvent.managerStarted ::
      ((sessions.map (fun s => receiveTaskTrace s.1 s.2)).flatten ++ [CliEvent.micClosed]), true)

/- ===== Server response synthesis (android_server.py, handler) ===== -/

def SINE_FREQUENCY : ℚ := 440

def SINE_DURATION : ℚ := 1 / 2

/- num_samples = int(SINE_DURATION * RATE). -/
def num_samples : ℕ := (⌊SINE_DURATION * (RATE : ℚ)⌋).toNat

/- t = np.linspace(0, SINE_DURATION, num_samples, endpoint=False):
t_i = SINE_DURATION * i / num_samples. -/
def tvec (i : ℕ) : ℚ := SINE_DURATION * (i : ℚ) / (num_samples : ℚ)

/- float-to-integer conversion of .astype(np.int16): truncation toward zero. -/
def truncQ (x : ℚ) : ℤ := if 0 ≤ x then ⌊x⌋ else -⌊-x⌋

/- int16 wrap-around of .astype(np.int16). -/
def toInt16 (z : ℤ) : ℤ := (z + 32768) % 65536 - 32768

/- .tobytes(): each int16 sample as two little-endian bytes. -/
def int16Bytes (z : ℤ) : List ℕ := [((z % 65536).toNat) % 256, ((z % 65536).toNat) / 256]

/- sine_wave = 0.5 * np.sin(2 * np.pi * SINE_FREQUENCY * t).  The machine
sine routine and the machine value of np.pi are abstracted as sinf and pif. -/
def sine_wave (sinf : ℚ → ℚ) (pif : ℚ) (i : ℕ) : ℚ :=
  (1 / 2) * sinf (2 * pif * SINE_FREQUENCY * tvec i)

/- audio_data_int = (sine_wave * 32767).astype(np.int16). -/
def audio_data_int (sinf : ℚ → ℚ) (pif : ℚ) : List ℤ :=
  (List.range num_samples).map (fun i => toInt16 (truncQ (sine_wave sinf pif i * 32767)))

/- audio_bytes = audio_data_int.tobytes(). -/
def audio_bytes (sinf : ℚ → ℚ) (pif : ℚ) : List ℕ :=
  ((audio_data_int sinf pif).map int16Bytes).flatten

/- ===== Server session handler trace (android_server.py, handler) ===== -/

inductive SrvEvent
  | openAttempt
  | reportOpenFail
  | play (m : List ℕ)
  | sendFrame (b : List ℕ)
  | stopStream
  | closeStream
  | terminatePa
deriving DecidableEq

/- The async-for message loop: per inbound message, when the stream is
active, play it back and send the synthesized response as the single reply;
when the stream is inactive the loop breaks with no reply. -/
def msgLoop (sinf : ℚ → ℚ) (pif : ℚ) (active : ℕ → Bool) : ℕ → List (List ℕ) → List SrvEvent
  | _, [] => []
  | i, m :: rest =>
    if active i then
      SrvEvent.play m :: SrvEvent.sendFrame (audio_bytes sinf pif) ::
        msgLoop sinf pif active (i + 1) rest
    else []

/- The payloads of the sendFrame events of a trace, in order. -/
def sendsOf (l : List SrvEvent) : List (List ℕ) :=
  l.filterMap (fun e => match e with | SrvEvent.sendFrame b => some b | _ => none)

/- The finally-block of handler: stop the stream if still active, close it
(when it was opened), and terminate the per-session PyAudio instance. -/
def handlerFinally (opened streamActiveAtEnd : Bool) : List SrvEvent :=
  (if opened then
    (if streamActiveAtEnd then [SrvEvent.stopStream] else []) ++ [SrvEvent.closeStream]
  else []) ++ [SrvEvent.terminatePa]

/- How the message loop ended: drained all messages, clean close, erroring
close, or an unexpected exception.  Teardown is identical in all cases. -/
inductive SessionEnd
  | drained
  | closedOk
  | closedError
  | unexpectedErr
deriving DecidableEq

/- Whole-session trace: open the playback stream; on failure return
immediately (the finally block still terminates PyAudio); on success run the
message loop (k messages got processed before the session ended for reason
endKind) and then the finally block. -/
def handlerTrace (sinf : ℚ → ℚ) (pif : ℚ) (openOk : Bool) (msgs : List (List ℕ)) (k : ℕ)
    (endKind : SessionEnd) (streamActiveAtEnd : Bool) : List SrvEvent :=
  SrvEvent.openAttempt ::
    (if openOk then
      msgLoop sinf pif (fun _ => true) 0 (msgs.take k) ++ handlerFinally true streamActiveAtEnd
    else SrvEvent.reportOpenFail :: handlerFinally false streamActiveAtEnd)

/- ===== Manager connected-state iteration (script.py, websocket_client_manager) ===== -/

inductive PingOutcome
  | ok
  | timeoutOrClosed
  | otherError
deriving DecidableEq

def PING_TIMEOUT_SECONDS : ℚ := 3

def PING_INTERVAL_SECONDS : ℚ := 1

inductive MgrEvent
  | pingAttempt (timeoutSec : ℚ)
  | resetDelay
  | reportLoss
  | clearConnection
  | cancelSendTask
  | cancelRecvTask
  | awaitTasks
  | sleepInterval (sec : ℚ)
  | connectAttempt
  | startSendTask
  | startRecvTask
deriving DecidableEq

/- One iteration of the manager loop while a connection handle exists:
ping with a 3 s timeout; on success reset the backoff delay; on timeout,
closed connection or other ping error, report, clear the connection handle
and cancel the running sender/receiver tasks (without awaiting them here);
either way sleep 1 s.  The returned Bool says whether the connection handle
is still set afterwards. -/
def connectedIteration (r : PingOutcome) (sendRunning recvRunning : Bool) :
    List MgrEvent × Bool :=
  match r with
  | PingOutcome.ok =>
    ([MgrEvent.pingAttempt PING_TIMEOUT_SECONDS, MgrEvent.resetDelay,
      MgrEvent.sleepInterval PING_INTERVAL_SECONDS], true)
  | _ =>
    ([MgrEvent.pingAttempt PING_TIMEOUT_SECONDS, MgrEvent.reportLoss,
        MgrEvent.clearConnection]
      ++ (if sendRunning then [MgrEvent.cancelSendTask] else [])
      ++ (if recvRunning then [MgrEvent.cancelRecvTask] else [])
      ++ [MgrEvent.sleepInterval PING_INTERVAL_SECONDS], false)

inductive MgrBranch
  | reconnect
  | pingConnection
deriving DecidableEq

/- Head of the manager loop: without a connection handle it enters the
connect/retry branch, with one it enters the ping branch. -/
def managerBranch (hasConnection : Bool) : MgrBranch :=
  if hasConnection then MgrBranch.pingConnection else MgrBranch.reconnect

/- The successful-connect branch: reset backoff, cancel undone old tasks,
await old tasks, and only then start the new sender/receiver tasks. -/
def connectSuccessIteration (sendExists sendNotDone recvExists recvNotDone : Bool) :
    List MgrEvent :=
  ([MgrEvent.connectAttempt, MgrEvent.resetDelay]
    ++ (if sendExists && sendNotDone then [MgrEvent.cancelSendTask] else [])
    ++ (if recvExists && recvNotDone then [MgrEvent.cancelRecvTask] else [])
    ++ (if sendExists then [MgrEvent.awaitTasks] else [])
    ++ (if recvExists then [MgrEvent.awaitTasks] else []))
    ++ [MgrEvent.startSendTask, MgrEvent.startRecvTask]

/- ===== Stop wrapper and shutdown sequence (script.py) ===== -/

structure ClientFlags where
  recording : Bool
  app_running : Bool
deriving DecidableEq

inductive StopEffect
  | guiStatusStopping
  | guiDisableStopButton
deriving DecidableEq

/- stop_recording_wrapper: when already fully stopped (not app_running and
not recording) it returns immediately, before any GUI update; otherwise it
schedules the two GUI updates and clears both flags. -/
def stop_recording_wrapper (st : ClientFlags) : ClientFlags × List StopEffect :=
  if !st.app_running && !st.recording then (st, [])
  else ({ recording := false, app_running := false },
    [StopEffect.guiStatusStopping, StopEffect.guiDisableStopButton])

inductive ShutEvent
  | flagOff
  | send
  | cancelTasks
  | tasksAwaited
  | closeConn
  | closeHardware
deriving DecidableEq

/- Manager shutdown block after the loop observes app_running = False:
cancel pending sub-tasks and await them (when any exist), then close the
connection (when one exists). -/
def managerShutdownTrace (sendRunning recvRunning hasConnection : Bool) : List ShutEvent :=
  (if sendRunning || recvRunning then [ShutEvent.cancelTasks, ShutEvent.tasksAwaited] else [])
    ++ (if hasConnection then [ShutEvent.closeConn] else [])

/- The full client shutdown sequence: stop_recording_wrapper flips the flags
first; the manager then runs its shutdown block; the background thread's
finally block releases the microphone stream only after the manager task
completed. -/
def clientShutdownTrace (sendRunning recvRunning hasConnection : Bool) : List ShutEvent :=
  ShutEvent.flagOff :: managerShutdownTrace sendRunning recvRunning hasConnection
    ++ [ShutEvent.closeHardware]

/- The mid-stream shutdown order (tasks running, connection open). -/
def shutdownOrder : List ShutEvent := clientShutdownTrace true true true

/- An interleaving of the sender task's events with the shutdown sequence. -/
inductive Merge : List ShutEvent → List ShutEvent → List ShutEvent → Prop
  | nil : Merge [] [] []
  | left (x : ShutEvent) {s m tr : List ShutEvent} : Merge s m tr → Merge (x :: s) m (x :: tr)
  | right (y : ShutEvent) {s m tr : List ShutEvent} : Merge s m tr → Merge s (y :: m) (y :: tr)

/- Await semantics: gather returns only after the cancelled tasks finished,
so in the real trace no send event occurs after the tasksAwaited event. -/
def AwaitBarrier (tr : List ShutEvent) : Prop :=
  ∀ pre post, tr = pre ++ ShutEvent.tasksAwaited :: post → ShutEvent.send ∉ post

/- No write is attempted on the connection after it was closed. -/
def NoSendAfterClose (tr : List ShutEvent) : Prop :=
  ∀ pre post, tr = pre ++ ShutEvent.closeConn :: post → ShutEvent.send ∉ post

/- ===== Claim statements (specification properties over the embedding) ===== -/

/- Amended claim C3, for one receiver session: at most one writeWav
invocation; when the received frames reach the target, the session flushes
exactly once, at the first chunk reaching the target, with at least the
target frame count, and saving stays deactivated; when the target is never
reached the loop itself writes nothing (only the shutdown leftover flush
may then fire). -/
def CaptureOnceProp (maxFrames : ℕ) (chunks : List (List ℕ)) : Prop :=
  (sessionWrites maxFrames chunks).length ≤ 1 ∧
  (maxFrames ≤ totalFrames chunks →
    ((recvSaveLoop maxFrames initSave chunks).1.active = false ∧
      ∃ k, k < chunks.length ∧
        sessionWrites maxFrames chunks = [(chunks.take (k + 1)).flatten] ∧
        totalFrames (chunks.take k) < maxFrames ∧
        maxFrames ≤ totalFrames (chunks.take (k + 1)) ∧
        maxFrames ≤ ((chunks.take (k + 1)).flatten).length / 2)) ∧
  (totalFrames chunks < maxFrames → (recvSaveLoop maxFrames initSave chunks).2 = [])

/- Claim C2: with the playback handle active, every inbound message gets
exactly one reply, always the same synthesized frame, of 22050 samples and
44100 bytes, independently of the inbound contents. -/
def ServerReplyProp (sinf : ℚ → ℚ) (pif : ℚ) (active : ℕ → Bool)
    (msgs : List (List ℕ)) : Prop :=
  sendsOf (msgLoop sinf pif active 0 msgs) = msgs.map (fun _ => audio_bytes sinf pif) ∧
  (audio_data_int sinf pif).length = 22050 ∧
  (audio_bytes sinf pif).length = 44100

/- Amended claim C7: a failed ping clears the connection handle in the same
iteration and cancels the running pipelines, without awaiting them there
(they are awaited before new pipelines start on the next successful connect,
or at shutdown); with the handle cleared the next iteration takes the
reconnect branch; a successful ping only resets the backoff delay; the ping
uses a 3 s timeout and the connected loop sleeps 1 s per iteration. -/
def PingTeardownProp (r : PingOutcome) (sendRunning recvRunning : Bool) : Prop :=
  (connectedIteration r sendRunning recvRunning).2 = false ∧
  MgrEvent.clearConnection ∈ (connectedIteration r sendRunning recvRunning).1 ∧
  (sendRunning = true →
    MgrEvent.cancelSendTask ∈ (connectedIteration r sendRunning recvRunning).1) ∧
  (recvRunning = true →
    MgrEvent.cancelRecvTask ∈ (connectedIteration r sendRunning recvRunning).1) ∧
  MgrEvent.awaitTasks ∉ (connectedIteration r sendRunning recvRunning).1 ∧
  managerBranch false = MgrBranch.reconnect ∧
  (connectedIteration PingOutcome.ok sendRunning recvRunning).1 =
    [MgrEvent.pingAttempt PING_TIMEOUT_SECONDS, MgrEvent.resetDelay,
      MgrEvent.sleepInterval PING_INTERVAL_SECONDS] ∧
  (∀ a b c d : Bool, ∃ pre, connectSuccessIteration a b c d =
    pre ++ [MgrEvent.startSendTask, MgrEvent.startRecvTask])

/- ===================================================================== -/
/- ===== Theorems ===== -/
/- ===================================================================== -/

/- Helper: the capped-doubling identity used for the backoff closed form. -/
theorem min_cap_mul (a p : ℕ) (hp : 1 ≤ p) : min (min a 30 * p) 30 = min (a * p) 30 := by
  rcases Nat.le_total a 30 with h | h
  · rw [Nat.min_eq_left h]
  · rw [Nat.min_eq_right h]
    have h30 : 30 ≤ 30 * p := Nat.le_mul_of_pos_right 30 hp
    have hap : 30 * p ≤ a * p := Nat.mul_le_mul_right p h
    rw [Nat.min_eq_right h30, Nat.min_eq_right (le_trans h30 hap)]

/- Helper: closed form of the backoff fold from any start value ≤ 30. -/
theorem delayFold_closed :
    ∀ (ks : List ConnectFailureKind) (d : ℕ), d ≤ 30 →
      ks.foldl (fun d k => stepRetryDelay d (ConnEvent.connectFail k)) d =
        min (d * 2 ^ ks.length) 30 := by
  intro ks
  induction ks with
  | nil =>
    intro d hd
    simp [Nat.min_eq_left hd]
  | cons k ks ih =>
    intro d hd
    have hstep : stepRetryDelay d (ConnEvent.connectFail k) = min (d * 2) 30 := rfl
    have hle : min (d * 2) 30 ≤ 30 := Nat.min_le_right _ _
    calc (k :: ks).foldl (fun d k => stepRetryDelay d (ConnEvent.connectFail k)) d
        = ks.foldl (fun d k => stepRetryDelay d (ConnEvent.connectFail k)) (min (d * 2) 30) := by
          simp [List.foldl_cons, hstep]
      _ = min (min (d * 2) 30 * 2 ^ ks.length) 30 := ih _ hle
      _ = min (d * 2 * 2 ^ ks.length) 30 := min_cap_mul _ _ (Nat.one_le_two_pow)
      _ = min (d * 2 ^ (k :: ks).length) 30 := by
          rw [List.length_cons, pow_succ]
          ring_nf

/-- C1: the retry delay starts at 1 s; every consecutive connection failure
(timeout, refused, OS error or other) doubles it, capped at 30 s; any
success (successful connect or successful ping) resets it to 1 s; hence the
delay used on the k-th (0-indexed) consecutive failure of a run is
min(2^k, 30) and such delays are non-decreasing along a run. -/
theorem backoff_recurrence :
    delayAfterFails [] = 1 ∧
    (∀ ks, delayAfterFails ks = min (2 ^ ks.length) 30) ∧
    (∀ ks k, delayAfterFails ks ≤ delayAfterFails (ks ++ [k])) ∧
    (∀ d k, stepRetryDelay d (ConnEvent.connectFail k) = min (d * 2) 30) ∧
    (∀ d, stepRetryDelay d ConnEvent.connectOk = 1 ∧ stepRetryDelay d ConnEvent.pingOk = 1) := by
  have hclosed : ∀ ks, delayAfterFails ks = min (2 ^ ks.length) 30 := by
    intro ks
    have := delayFold_closed ks 1 (by norm_num)
    simpa [delayAfterFails, INITIAL_RETRY_DELAY] using this
  refine ⟨rfl, hclosed, ?_, ?_, ?_⟩
  · intro ks k
    rw [hclosed ks, hclosed (ks ++ [k])]
    have h2 : (2 : ℕ) ^ ks.length ≤ 2 ^ (ks ++ [k]).length := by
      apply Nat.pow_le_pow_right (by norm_num)
      simp
    omega
  · intro d k
    rfl
  · intro d
    exact ⟨rfl, rfl⟩

/-- C10: the capture callback returns the captured buffer with the continue
signal exactly when both the recording flag and the app_running flag are
set, enqueues it exactly when additionally the background loop is running,
and otherwise returns (no buffer, complete signal) and enqueues nothing. -/
theorem audio_callback_gate :
    ∀ (recording app_running loopRunning : Bool) (in_data : List ℕ),
      ((audio_callback recording app_running loopRunning in_data).1 =
          (some in_data, CallbackSignal.paContinue) ↔ recording = true ∧ app_running = true) ∧
      (recording = true ∧ app_running = true →
        (audio_callback recording app_running loopRunning in_data).2 = loopRunning) ∧
      (¬(recording = true ∧ app_running = true) →
        audio_callback recording app_running loopRunning in_data =
          ((none, CallbackSignal.paComplete), false)) := by
  intro r a l d
  cases r <;> cases a <;> simp [audio_callback]

/-- C9: stopping while already stopped/disconnected is a no-op: the state is
unchanged and no effect is produced; a second stop after any stop is always
a no-op; and the manager shutdown block from the disconnected state (no
running pipelines, no connection) performs no cancellation and no close. -/
theorem stop_idempotent_when_stopped :
    stop_recording_wrapper { recording := false, app_running := false } =
      ({ recording := false, app_running := false }, []) ∧
    (∀ st : ClientFlags,
      stop_recording_wrapper (stop_recording_wrapper st).1 = ((stop_recording_wrapper st).1, [])) ∧
    managerShutdownTrace false false false = [] := by
  refine ⟨rfl, ?_, rfl⟩
  intro st
  rcases st with ⟨r, a⟩
  cases r <;> cases a <;> rfl

/-- C6: the sender pipeline pops frames from the queue in FIFO order and
writes each (non-empty) frame as one message: after n pop-iterations the
frames written are exactly the first n frames pushed, in push order, with no
reordering, duplication or interleaving, and the rest are still queued. -/
theorem sender_fifo (n : ℕ) (q : List (List ℕ)) (h : ∀ f ∈ q, f ≠ []) :
    (sendLoopN n q).1 = q.take n ∧ (sendLoopN n q).2 = q.drop n ∧
      (sendLoopN q.length q).1 = q := by
  have main : ∀ (n : ℕ) (q : List (List ℕ)), (∀ f ∈ q, f ≠ []) →
      (sendLoopN n q).1 = q.take n ∧ (sendLoopN n q).2 = q.drop n := by
    intro n
    induction n with
    | zero =>
      intro q _
      exact ⟨rfl, rfl⟩
    | succ n ih =>
      intro q hq
      cases q with
      | nil => exact ⟨rfl, rfl⟩
      | cons f rest =>
        have hf : f ≠ [] := hq f (List.mem_cons_self f rest)
        have hfe : f.isEmpty = false := by
          cases f
          · exact absurd rfl hf
          · rfl
        have ihr := ih rest (fun g hg => hq g (List.mem_cons_of_mem f hg))
        refine ⟨?_, ?_⟩
        · show (if f.isEmpty then [] else [f]) ++ (sendLoopN n rest).1 = (f :: rest).take (n + 1)
          simp [hfe, ihr.1]
        · show (sendLoopN n rest).2 = (f :: rest).drop (n + 1)
          simp [ihr.2]
  refine ⟨(main n q h).1, (main n q h).2, ?_⟩
  rw [(main q.length q h).1]
  simp

/-- C6 witness: concrete instance with three non-empty frames. -/
theorem sender_fifo_wit :
    (∀ f ∈ ([[1], [2], [3]] : List (List ℕ)), f ≠ []) ∧
    ((sendLoopN 2 [[1], [2], [3]]).1 = [[1], [2]] ∧
      (sendLoopN 2 [[1], [2], [3]]).2 = [[3]] ∧
      (sendLoopN 3 [[1], [2], [3]]).1 = [[1], [2], [3]]) := by
  have h : ∀ f ∈ ([[1], [2], [3]] : List (List ℕ)), f ≠ [] := by decide
  have hthm := sender_fifo 2 [[1], [2], [3]] h
  exact ⟨h, by simpa using hthm⟩

/- Helper: chunkFrames in terms of the byte length. -/
theorem chunkFrames_eq (d : List ℕ) : chunkFrames d = d.length / 2 := by
  simp [chunkFrames, sample_width, CHANNELS]

theorem totalFrames_nil : totalFrames [] = 0 := rfl

theorem totalFrames_cons (d : List ℕ) (rest : List (List ℕ)) :
    totalFrames (d :: rest) = chunkFrames d + totalFrames rest := by
  simp [totalFrames]

theorem totalFrames_take_le (chunks : List (List ℕ)) (n : ℕ) :
    totalFrames (chunks.take n) ≤ totalFrames chunks := by
  conv_rhs => rw [← List.take_append_drop n chunks]
  unfold totalFrames
  rw [List.map_append, List.sum_append]
  exact Nat.le_add_right _ _

/- Helper: saveStep case equations. -/
theorem saveStep_skip (maxFrames : ℕ) (s : SaveState) (d : List ℕ) (hd : d.isEmpty = true) :
    saveStep maxFrames s d = (s, []) := by
  unfold saveStep
  simp [hd]

theorem saveStep_inactive (maxFrames : ℕ) (s : SaveState) (d : List ℕ)
    (hs : s.active = false) : saveStep maxFrames s d = (s, []) := by
  unfold saveStep
  split
  · rfl
  · simp [hs]

theorem saveStep_flush (maxFrames : ℕ) (s : SaveState) (d : List ℕ)
    (hd : d.isEmpty = false) (ha : s.active = true)
    (hge : maxFrames ≤ s.frames + chunkFrames d) :
    saveStep maxFrames s d =
      ({ active := false, frames := s.frames + chunkFrames d, buffer := [] },
        [(s.buffer ++ [d]).flatten]) := by
  unfold saveStep
  simp [hd, ha, hge]

theorem saveStep_acc (maxFrames : ℕ) (s : SaveState) (d : List ℕ)
    (hd : d.isEmpty = false) (ha : s.active = true)
    (hlt : s.frames + chunkFrames d < maxFrames) :
    saveStep maxFrames s d =
      ({ active := true, frames := s.frames + chunkFrames d, buffer := s.buffer ++ [d] },
        []) := by
  unfold saveStep
  simp [hd, ha, Nat.not_le.mpr hlt]

theorem recvSaveLoop_cons (maxFrames : ℕ) (s : SaveState) (d : List ℕ)
    (rest : List (List ℕ)) :
    recvSaveLoop maxFrames s (d :: rest) =
      ((recvSaveLoop maxFrames (saveStep maxFrames s d).1 rest).1,
        (saveStep maxFrames s d).2 ++ (recvSaveLoop maxFrames (saveStep maxFrames s d).1 rest).2) :=
  rfl

/- Helper: once saving is inactive, the loop neither writes nor changes state. -/
theorem recvSaveLoop_inactive (maxFrames : ℕ) :
    ∀ (chunks : List (List ℕ)) (s : SaveState), s.active = false →
      recvSaveLoop maxFrames s chunks = (s, []) := by
  intro chunks
  induction chunks with
  | nil =>
    intro s _
    rfl
  | cons d rest ih =>
    intro s hs
    rw [recvSaveLoop_cons, saveStep_inactive maxFrames s d hs]
    simp [ih s hs]

/- Helper: the dichotomy of one saving session.  Either the target was never
reached, no write happened, the frame counter sums all received chunks and
stays below the target; or there is a first target-reaching chunk at which the
joined buffer was written once, the counter relation certifies the write is
at least the target, and saving is inactive (with an empty buffer) for the
rest of the session. -/
theorem recvSaveLoop_spec (maxFrames : ℕ) :
    ∀ (chunks : List (List ℕ)) (s : SaveState),
      s.active = true → s.frames < maxFrames → s.frames ≤ s.buffer.flatten.length / 2 →
      (((recvSaveLoop maxFrames s chunks).1.active = true ∧
        (recvSaveLoop maxFrames s chunks).2 = [] ∧
        (recvSaveLoop maxFrames s chunks).1.frames = s.frames + totalFrames chunks ∧
        (recvSaveLoop maxFrames s chunks).1.frames < maxFrames ∧
        (recvSaveLoop maxFrames s chunks).1.buffer.flatten =
          s.buffer.flatten ++ chunks.flatten ∧
        (recvSaveLoop maxFrames s chunks).1.frames ≤
          (recvSaveLoop maxFrames s chunks).1.buffer.flatten.length / 2)
      ∨ ((recvSaveLoop maxFrames s chunks).1.active = false ∧
        (recvSaveLoop maxFrames s chunks).1.buffer = [] ∧
        ∃ k, k < chunks.length ∧
          (recvSaveLoop maxFrames s chunks).2 =
            [s.buffer.flatten ++ (chunks.take (k + 1)).flatten] ∧
          s.frames + totalFrames (chunks.take k) < maxFrames ∧
          maxFrames ≤ s.frames + totalFrames (chunks.take (k + 1)) ∧
          maxFrames ≤ (s.buffer.flatten ++ (chunks.take (k + 1)).flatten).length / 2)) := by
  intro chunks
  induction chunks with
  | nil =>
    intro s ha hf hb
    left
    exact ⟨ha, rfl, by simp [recvSaveLoop, totalFrames_nil], hf, by simp [recvSaveLoop], hb⟩
  | cons d rest ih =>
    intro s ha hf hb
    by_cases hd : d.isEmpty = true
    · -- empty chunk: skipped entirely
      have hdnil : d = [] := by simpa [List.isEmpty_iff] using hd
      rw [recvSaveLoop_cons, saveStep_skip maxFrames s d hd]
      rcases ih s ha hf hb with ⟨h1, h2, h3, h4, h5, h6⟩ | ⟨h1, h2, k, hk, hw, hlo, hhi, hlen⟩
      · left
        subst hdnil
        refine ⟨h1, by simpa using h2, ?_, h4, ?_, h6⟩
        · rw [h3, totalFrames_cons]
          simp [chunkFrames]
        · simpa using h5
      · right
        subst hdnil
        refine ⟨h1, h2, k + 1, by simpa using Nat.succ_lt_succ hk, ?_, ?_, ?_, ?_⟩
        · simpa [List.take_succ_cons] using hw
        · simpa [List.take_succ_cons, totalFrames_cons, chunkFrames] using hlo
        · simpa [List.take_succ_cons, totalFrames_cons, chunkFrames] using hhi
        · simpa [List.take_succ_cons] using hlen
    · have hd' : d.isEmpty = false := by
        cases hde : d.isEmpty
        · rfl
        · exact absurd hde hd
      by_cases hflush : maxFrames ≤ s.frames + chunkFrames d
      · -- the target is reached at this chunk: single flush, then inactive
        rw [recvSaveLoop_cons, saveStep_flush maxFrames s d hd' ha hflush]
        rw [recvSaveLoop_inactive maxFrames rest _ rfl]
        right
        refine ⟨rfl, rfl, 0, by simp, ?_, by simpa [totalFrames_nil] using hf, ?_, ?_⟩
        · simp
        · simpa [totalFrames_cons, totalFrames_nil] using hflush
        · have hlen : d.length / 2 = chunkFrames d := (chunkFrames_eq d).symm
          have hbb : s.frames + chunkFrames d ≤
              (s.buffer.flatten.length + d.length) / 2 := by
            rw [← hlen]
            omega
          simp only [List.take_succ_cons, List.take_zero, List.flatten_cons,
            List.flatten_nil, List.append_nil, List.length_append]
          omega
      · -- below target: accumulate and continue
        have hlt : s.frames + chunkFrames d < maxFrames := Nat.not_le.mp hflush
        rw [recvSaveLoop_cons, saveStep_acc maxFrames s d hd' ha hlt]
        have hb' : s.frames + chunkFrames d ≤
            ((s.buffer ++ [d]).flatten).length / 2 := by
          have : (s.buffer ++ [d]).flatten.length = s.buffer.flatten.length + d.length := by
            simp
          rw [this, chunkFrames_eq]
          omega
        rcases ih ⟨true, s.frames + chunkFrames d, s.buffer ++ [d]⟩ rfl hlt hb' with
          ⟨h1, h2, h3, h4, h5, h6⟩ | ⟨h1, h2, k, hk, hw, hlo, hhi, hlen⟩
        · left
          dsimp only at h3 h5
          refine ⟨h1, by simpa using h2, ?_, h4, ?_, h6⟩
          · rw [h3, totalFrames_cons]
            omega
          · rw [h5]
            simp [List.append_assoc]
        · right
          dsimp only at hw hlo hhi hlen
          refine ⟨h1, h2, k + 1, by simpa using Nat.succ_lt_succ hk, ?_, ?_, ?_, ?_⟩
          · rw [hw]
            simp [List.take_succ_cons, List.append_assoc]
          · rw [List.take_succ_cons, totalFrames_cons]
            omega
          · rw [List.take_succ_cons, totalFrames_cons]
            omega
          · rw [List.take_succ_cons]
            simpa [List.append_assoc] using hlen

/-- C3 (amended): when file capture is configured with a positive frame
target, one receiver session invokes the file sink at most once; it flushes
exactly once at the first chunk where the accumulated count reaches the
target, with total frame count at least the target, and the accumulator is
deactivated for the remainder of that session; a session that never reaches
the target performs no main flush (only the shutdown leftover flush).  The
original claim's run-wide scope fails across reconnections, see the
counterexample. -/
theorem capture_once_per_session (maxFrames : ℕ) (chunks : List (List ℕ))
    (hpos : 0 < maxFrames) : CaptureOnceProp maxFrames chunks := by
  have hif : initSave.frames = 0 := rfl
  have hib : initSave.buffer = ([] : List (List ℕ)) := rfl
  have hspec := recvSaveLoop_spec maxFrames chunks initSave rfl hpos (by simp [initSave])
  rcases hspec with ⟨h1, h2, h3, h4, h5, h6⟩ | ⟨h1, h2, k, hk, hw, hlo, hhi, hlen⟩
  · rw [hif] at h3
    refine ⟨?_, ?_, ?_⟩
    · unfold sessionWrites
      rw [h2]
      unfold sessionTailFlush
      split <;> simp
    · intro hreach
      exfalso
      omega
    · intro _
      exact h2
  · rw [hif] at hlo hhi
    rw [hib] at hw hlen
    simp only [List.flatten_nil, List.nil_append] at hw hlen
    have htail : sessionTailFlush (recvSaveLoop maxFrames initSave chunks).1 = [] := by
      unfold sessionTailFlush
      rw [h1]
      simp
    have hsw : sessionWrites maxFrames chunks = [(chunks.take (k + 1)).flatten] := by
      unfold sessionWrites
      rw [hw, htail, List.append_nil]
    refine ⟨?_, ?_, ?_⟩
    · rw [hsw]
      simp
    · intro _
      exact ⟨h1, k, hk, hsw, by omega, by omega, hlen⟩
    · intro hlt
      exfalso
      have hle := totalFrames_take_le chunks (k + 1)
      omega

/-- C3 witness: a 2-frame target reached by a single 4-byte chunk. -/
theorem capture_once_per_session_wit :
    0 < 2 ∧ CaptureOnceProp 2 [[0, 0, 0, 0]] :=
  ⟨by norm_num, capture_once_per_session 2 [[0, 0, 0, 0]] (by norm_num)⟩

/- Helper: a replicate of positive length is not the empty (falsy) chunk. -/
theorem replicate_not_empty (n : ℕ) (hn : 0 < n) :
    (List.replicate n (0 : ℕ)).isEmpty = false := by
  simp [List.isEmpty_iff]
  omega

/- Helper: a run of two receive-task sessions, each receiving a single
chunk that alone reaches the target, performs two writeWav invocations. -/
theorem runWrites_two_sessions (maxF : ℕ) (c : List ℕ) (hc : c.isEmpty = false)
    (hge : maxF ≤ chunkFrames c) :
    (runWrites maxF [[c], [c]]).length = 2 := by
  have hif : initSave.frames = 0 := rfl
  have hstep := saveStep_flush maxF initSave c hc rfl (by omega)
  have hsession : sessionWrites maxF [c] = [(initSave.buffer ++ [c]).flatten] := by
    unfold sessionWrites
    rw [recvSaveLoop_cons, hstep]
    simp [recvSaveLoop, sessionTailFlush]
  simp [runWrites, hsession]

/-- C3 counterexample: the claim as stated says the file sink is invoked
exactly once per run, never reused even across a reconnection of the same
run.  But the manager starts a fresh receive task, with fresh local saving
state, on every successful (re)connect; with a 5 s target (220500 frames), a
run whose two sessions each receive one 441000-byte chunk invokes writeWav
twice. -/
theorem capture_rearmed_on_reconnect_cex :
    (runWrites (5 * 44100) [[List.replicate 441000 0], [List.replicate 441000 0]]).length
      = 2 := by
  apply runWrites_two_sessions
  · exact replicate_not_empty 441000 (by norm_num)
  · rw [chunkFrames_eq, List.length_replicate]

/- Helper: sendsOf head equations. -/
theorem sendsOf_cons_play (m : List ℕ) (l : List SrvEvent) :
    sendsOf (SrvEvent.play m :: l) = sendsOf l := rfl

theorem sendsOf_cons_send (b : List ℕ) (l : List SrvEvent) :
    sendsOf (SrvEvent.sendFrame b :: l) = b :: sendsOf l := rfl

/-- C2: for every inbound message the server handler receives while its
playback handle is active, it sends back exactly one reply, and the reply is
always the same deterministic frame: int(0.5 × 44100) = 22050 16-bit samples
(44100 bytes) of the rendered 440 Hz half-amplitude sine, independent of the
inbound frame's content or length.  The machine sine routine and machine pi
are abstracted as parameters; all counts hold for every instantiation. -/
theorem server_reply_per_message (sinf : ℚ → ℚ) (pif : ℚ) (active : ℕ → Bool)
    (msgs : List (List ℕ)) (h : ∀ i, active i = true) :
    ServerReplyProp sinf pif active msgs := by
  have hn : num_samples = 22050 := by
    have hfloor : ⌊SINE_DURATION * ((RATE : ℕ) : ℚ)⌋ = 22050 := by
      norm_num [SINE_DURATION, RATE]
    rw [num_samples, hfloor]
    rfl
  have hlen : (audio_data_int sinf pif).length = 22050 := by
    simp [audio_data_int, hn]
  refine ⟨?_, hlen, ?_⟩
  · have main : ∀ (i : ℕ) (ms : List (List ℕ)),
        sendsOf (msgLoop sinf pif active i ms) = ms.map (fun _ => audio_bytes sinf pif) := by
      intro i ms
      induction ms generalizing i with
      | nil => rfl
      | cons m rest ih =>
        rw [show msgLoop sinf pif active i (m :: rest) =
            SrvEvent.play m :: SrvEvent.sendFrame (audio_bytes sinf pif) ::
              msgLoop sinf pif active (i + 1) rest from by simp [msgLoop, h i]]
        rw [sendsOf_cons_play, sendsOf_cons_send, ih (i + 1)]
        rfl
    exact main 0 msgs
  · have h2 : ∀ l : List ℤ, ((l.map int16Bytes).flatten).length = 2 * l.length := by
      intro l
      induction l with
      | nil => rfl
      | cons z rest ih =>
        simp [int16Bytes, ih]
        ring
    rw [audio_bytes, h2, hlen]

/-- C2 witness: the always-active handle and a single message, with the
sine routine instantiated by the zero function. -/
theorem server_reply_per_message_wit :
    (∀ i : ℕ, (fun _ : ℕ => true) i = true) ∧
      ServerReplyProp (fun _ => 0) 0 (fun _ => true) [[7]] :=
  ⟨fun _ => rfl, server_reply_per_message (fun _ => 0) 0 (fun _ => true) [[7]] (fun _ => rfl)⟩

/-- C4 (amended): a failure to open the microphone is fatal to the whole
run: the error is classified into one of three user-facing messages (no
device / busy / generic), reported, app_running is cleared and the run
aborts with no manager and no sessions, so the microphone open is never
re-attempted in that run; a failure to open the speaker is fatal to that
receiver session: classified, reported, and the session aborts with no
playback and no retry within the session.  The original claim's run-wide
never-reattempted scope fails for the speaker across reconnections, see the
counterexample. -/
theorem hardware_open_failure_fatal (e : List Char)
    (sessions : List (Option (List Char) × List (List ℕ))) (chunks : List (List ℕ)) :
    (clientRunTrace (some e) sessions).1 =
      [CliEvent.openMicAttempt, CliEvent.report (user_msg_input e)] ∧
    (clientRunTrace (some e) sessions).2 = false ∧
    CliEvent.managerStarted ∉ (clientRunTrace (some e) sessions).1 ∧
    CliEvent.micStreamStarted ∉ (clientRunTrace (some e) sessions).1 ∧
    (user_msg_input e = noMicMsg ∨ user_msg_input e = micBusyMsg ∨
      user_msg_input e = micGenericMsg) ∧
    receiveTaskTrace (some e) chunks =
      [CliEvent.openSpeakerAttempt, CliEvent.report (user_msg_output e)] ∧
    (∀ b, CliEvent.playChunk b ∉ receiveTaskTrace (some e) chunks) ∧
    (user_msg_output e = noSpkMsg ∨ user_msg_output e = spkBusyMsg ∨
      user_msg_output e = spkGenericMsg) := by
  refine ⟨rfl, rfl, ?_, ?_, ?_, rfl, ?_, ?_⟩
  · simp [clientRunTrace]
  · simp [clientRunTrace]
  · unfold user_msg_input
    split
    · exact Or.inl rfl
    · split
      · exact Or.inr (Or.inl rfl)
      · exact Or.inr (Or.inr rfl)
  · intro b
    simp [receiveTaskTrace]
  · unfold user_msg_output
    split
    · exact Or.inl rfl
    · split
      · exact Or.inr (Or.inl rfl)
      · exact Or.inr (Or.inr rfl)

/-- C4 counterexample: the claim as stated says an unopenable device is
never re-attempted during the same run; but the manager starts a fresh
receive task on every successful (re)connect, and each task attempts to
open the speaker.  A run with two sessions, both failing with the same
busy-device error, holds two speaker open attempts. -/
theorem speaker_reopen_same_run_cex :
    ((clientRunTrace none
        [(some ("device unavailable".toList), []),
          (some ("device unavailable".toList), [])]).1.count
      CliEvent.openSpeakerAttempt) = 2 := by
  decide

/- Helper: the server message loop produces only play and sendFrame
events, never teardown events. -/
theorem msgLoop_no_teardown (sinf : ℚ → ℚ) (pif : ℚ) (active : ℕ → Bool) :
    ∀ (i : ℕ) (msgs : List (List ℕ)),
      SrvEvent.stopStream ∉ msgLoop sinf pif active i msgs ∧
      SrvEvent.closeStream ∉ msgLoop sinf pif active i msgs ∧
      SrvEvent.terminatePa ∉ msgLoop sinf pif active i msgs := by
  intro i msgs
  induction msgs generalizing i with
  | nil => simp [msgLoop]
  | cons m rest ih =>
    by_cases ha : active i = true
    · have ihr := ih (i + 1)
      simp [msgLoop, ha, ihr.1, ihr.2.1, ihr.2.2]
    · have ha' : active i = false := by
        cases hx : active i
        · rfl
        · exact absurd hx ha
      simp [msgLoop, ha']

/-- C5: for every server session and every exit path (drained messages,
clean close, erroring close, unexpected exception, any number of processed
messages), the teardown events come only after all message processing, the
trace always ends by terminating the session's audio backend, the playback
stream is closed whenever it was opened, and an open failure aborts the
session immediately with no message played and no reply sent. -/
theorem server_session_teardown (sinf : ℚ → ℚ) (pif : ℚ) (openOk : Bool)
    (msgs : List (List ℕ)) (k : ℕ) (endKind : SessionEnd) (streamActiveAtEnd : Bool) :
    (∃ body, handlerTrace sinf pif openOk msgs k endKind streamActiveAtEnd =
        SrvEvent.openAttempt :: body ++ handlerFinally openOk streamActiveAtEnd ∧
        SrvEvent.stopStream ∉ body ∧ SrvEvent.closeStream ∉ body ∧
        SrvEvent.terminatePa ∉ body) ∧
    (handlerTrace sinf pif openOk msgs k endKind streamActiveAtEnd).getLast? =
      some SrvEvent.terminatePa ∧
    (openOk = true →
      SrvEvent.closeStream ∈ handlerTrace sinf pif openOk msgs k endKind streamActiveAtEnd) ∧
    (openOk = false →
      handlerTrace sinf pif openOk msgs k endKind streamActiveAtEnd =
        [SrvEvent.openAttempt, SrvEvent.reportOpenFail, SrvEvent.terminatePa] ∧
      (∀ m, SrvEvent.play m ∉ handlerTrace sinf pif openOk msgs k endKind streamActiveAtEnd) ∧
      (∀ b, SrvEvent.sendFrame b ∉
        handlerTrace sinf pif openOk msgs k endKind streamActiveAtEnd)) := by
  cases openOk
  · refine ⟨⟨[SrvEvent.reportOpenFail], rfl, by simp, by simp, by simp⟩, rfl, ?_, ?_⟩
    · intro hcontr
      exact absurd hcontr (by decide)
    · intro _
      refine ⟨rfl, ?_, ?_⟩
      · intro m
        simp [handlerTrace, handlerFinally]
      · intro b
        simp [handlerTrace, handlerFinally]
  · have hnt := msgLoop_no_teardown sinf pif (fun _ => true) 0 (msgs.take k)
    refine ⟨⟨msgLoop sinf pif (fun _ => true) 0 (msgs.take k), rfl,
      hnt.1, hnt.2.1, hnt.2.2⟩, ?_, ?_, ?_⟩
    · have hsh : handlerTrace sinf pif true msgs k endKind streamActiveAtEnd =
          (SrvEvent.openAttempt :: (msgLoop sinf pif (fun _ => true) 0 (msgs.take k) ++
            ((if streamActiveAtEnd then [SrvEvent.stopStream] else []) ++
              [SrvEvent.closeStream]))) ++ [SrvEvent.terminatePa] := by
        simp [handlerTrace, handlerFinally, List.append_assoc]
      rw [hsh]
      exact List.getLast?_concat _
    · intro _
      cases streamActiveAtEnd <;> simp [handlerTrace, handlerFinally]
    · intro hcontr
      exact absurd hcontr (by decide)

/-- C7 counterexample: the claim as stated says a failed ping makes the
manager cancel and await both pipelines in that same iteration; but the
ping-failure iteration only cancels them — it contains no await of the
pipelines. -/
theorem ping_failure_no_await_cex :
    MgrEvent.awaitTasks ∉ (connectedIteration PingOutcome.timeoutOrClosed true true).1 := by
  decide

/-- C7 (amended): while connected the manager pings once per second with a
3 s timeout; a failed, timed-out or closed-connection ping clears the
connection handle in that same iteration and cancels the running pipelines
(without awaiting them in that iteration — cancelled pipelines are awaited
before new ones start on the next successful connect, or at shutdown); with
the handle cleared, the next loop iteration takes the reconnect branch, so
the connected state never persists past a failed ping. -/
theorem ping_failure_teardown (r : PingOutcome) (sendRunning recvRunning : Bool)
    (hr : r ≠ PingOutcome.ok) : PingTeardownProp r sendRunning recvRunning := by
  have hlast : ∀ a b c d : Bool, ∃ pre, connectSuccessIteration a b c d =
      pre ++ [MgrEvent.startSendTask, MgrEvent.startRecvTask] := by
    intro a b c d
    exact ⟨_, rfl⟩
  cases r
  · exact absurd rfl hr
  · cases sendRunning <;> cases recvRunning <;>
      exact ⟨rfl, by decide, by decide, by decide, by decide, rfl, rfl, hlast⟩
  · cases sendRunning <;> cases recvRunning <;>
      exact ⟨rfl, by decide, by decide, by decide, by decide, rfl, rfl, hlast⟩

/-- C7 witness: ping timeout with both pipelines running. -/
theorem ping_failure_teardown_wit :
    (PingOutcome.timeoutOrClosed ≠ PingOutcome.ok) ∧
      PingTeardownProp PingOutcome.timeoutOrClosed true true :=
  ⟨by decide, ping_failure_teardown PingOutcome.timeoutOrClosed true true (by decide)⟩

/- Helper: the empty left list merges into the right list unchanged. -/
theorem merge_nil_left : ∀ m : List ShutEvent, Merge [] m m := by
  intro m
  induction m with
  | nil => exact Merge.nil
  | cons y t ih => exact Merge.right y ih

/- Helper: merging preserves the precedence structure of the right list:
when a never comes from the left list and every occurrence of a in the right
list is preceded by b, every occurrence of a in the merged trace is preceded
by b. -/
theorem merge_precede (a b : ShutEvent) :
    ∀ {s m tr : List ShutEvent}, Merge s m tr → a ∉ s →
      (∀ pre post, m = pre ++ a :: post → b ∈ pre) →
      ∀ pre post, tr = pre ++ a :: post → b ∈ pre := by
  intro s m tr h
  induction h with
  | nil =>
    intro _ _ pre post heq
    exact absurd heq (by simp)
  | left x hm ih =>
    intro hna hmono pre post heq
    rcases pre with _ | ⟨p, pre⟩
    · simp at heq
      exact absurd (heq.1 ▸ List.mem_cons_self x _) hna
    · simp at heq
      obtain ⟨rfl, htr⟩ := heq
      have hna' : a ∉ _ := fun hin => hna (List.mem_cons_of_mem _ hin)
      exact List.mem_cons_of_mem _ (ih hna' hmono pre post htr)
  | @right y s' m' tr' hm ih =>
    intro hna hmono pre post heq
    rcases pre with _ | ⟨p, pre⟩
    · simp at heq
      obtain ⟨rfl, _⟩ := heq
      have := hmono [] m' rfl
      simp at this
    · simp at heq
      obtain ⟨hyp, htr⟩ := heq
      subst hyp
      by_cases hb : b = y
      · exact hb ▸ List.mem_cons_self b _
      · have hmono' : ∀ pre post, m' = pre ++ a :: post → b ∈ pre := by
          intro pre' post' hm'
          have := hmono (y :: pre') post' (by simp [hm'])
          simp at this
          rcases this with h1 | h2
          · exact absurd h1 hb
          · exact h2
        exact List.mem_cons_of_mem _ (ih hna hmono' pre post htr)

/-- C8: the shutdown sequence is exactly: flip the flags, cancel the
sub-tasks, await their completion, close the connection, release the
hardware stream; and in every interleaving of an in-flight sender with this
sequence in which the await barrier holds (gather returns only after the
sender finished, so no send follows the tasksAwaited event), no send ever
occurs after the connection close — stop never causes a write on a closed
connection handle. -/
theorem shutdown_order_no_send_after_close (s tr : List ShutEvent)
    (hmerge : Merge s shutdownOrder tr)
    (hsends : ∀ x ∈ s, x = ShutEvent.send)
    (hbarrier : AwaitBarrier tr) :
    shutdownOrder = [ShutEvent.flagOff, ShutEvent.cancelTasks, ShutEvent.tasksAwaited,
      ShutEvent.closeConn, ShutEvent.closeHardware] ∧
    NoSendAfterClose tr := by
  refine ⟨rfl, ?_⟩
  intro pre post heq
  have hns : ShutEvent.closeConn ∉ s := by
    intro hx
    exact absurd (hsends _ hx) (by decide)
  have hm : ∀ pre' post', shutdownOrder = pre' ++ ShutEvent.closeConn :: post' →
      ShutEvent.tasksAwaited ∈ pre' := by
    intro pre' post' hm'
    rcases pre' with _ | ⟨b1, _ | ⟨b2, _ | ⟨b3, _ | ⟨b4, _ | ⟨b5, rest⟩⟩⟩⟩⟩ <;>
      simp_all [shutdownOrder, clientShutdownTrace, managerShutdownTrace]
  have haw := merge_precede ShutEvent.closeConn ShutEvent.tasksAwaited hmerge hns hm pre post heq
  obtain ⟨pre1, mid, hpre⟩ := List.append_of_mem haw
  subst hpre
  have htr : tr = pre1 ++ ShutEvent.tasksAwaited :: (mid ++ ShutEvent.closeConn :: post) := by
    rw [heq]
    simp [List.append_assoc]
  intro hsend
  exact hbarrier _ _ htr (List.mem_append_right _ (List.mem_cons_of_mem _ hsend))

/-- C8 witness: a single in-flight send interleaved ahead of the shutdown
sequence. -/
theorem shutdown_order_no_send_after_close_wit :
    Merge [ShutEvent.send] shutdownOrder (ShutEvent.send :: shutdownOrder) ∧
    (∀ x ∈ [ShutEvent.send], x = ShutEvent.send) ∧
    AwaitBarrier (ShutEvent.send :: shutdownOrder) ∧
    NoSendAfterClose (ShutEvent.send :: shutdownOrder) := by
  have hm : Merge [ShutEvent.send] shutdownOrder (ShutEvent.send :: shutdownOrder) :=
    Merge.left ShutEvent.send (merge_nil_left shutdownOrder)
  have hs : ∀ x ∈ [ShutEvent.send], x = ShutEvent.send := by decide
  have hb : AwaitBarrier (ShutEvent.send :: shutdownOrder) := by
    intro pre post h
    rcases pre with _ | ⟨a1, _ | ⟨a2, _ | ⟨a3, _ | ⟨a4, _ | ⟨a5, _ | ⟨a6, rest⟩⟩⟩⟩⟩⟩ <;>
      simp_all [shutdownOrder, clientShutdownTrace, managerShutdownTrace]
    obtain ⟨h1, h2, h3, h4⟩ := h
    subst h1
    subst h4
    simp
  exact ⟨hm, hs, hb, (shutdown_order_no_send_after_close _ _ hm hs hb).2⟩

end AudioRemote
